import Mathlib

/-!
Verification of the resume-screening core of the
`AI-Powered-Chatbot-System-for-Automated-Resume-Screening-and-Feedback`
repository.

The development shallowly embeds, over `List Char` / `String` / `ℚ`,
the three source modules the claims are about:

* `src/utils/improved_similarity_checker.py` (class `EnhancedSimilarityChecker`
  and the module level wrapper `calculate_similarity_score`),
* `src/utils/improved_metadata_extractor.py` (`extract_email`, `extract_phone`,
  `extract_location`, `extract_education`),
* `src/utils/ai_analysis_engine.py` (class `AIAnalysisEngine`).

Python numbers are modelled by `ℚ`, Python strings by `String`
(scanned as `List Char`), Python sets by `Finset String`.  The regular
expressions appearing in the source are small and concrete, so each one is
embedded as a dedicated scanner whose backtracking follows the semantics of
Python's `re` on that particular pattern.  The only part of the code that is
not embedded is the body of the sklearn TF-IDF vectorisation inside
`calculate_tfidf_score`: the cosine-similarity value it produces is taken as
an explicit `Option ℚ` parameter (`none` modelling an exception caught by the
`try`/`except` block); everything around it — the emptiness guards, the
1.5 boost, the 0.95 cap and the fallback to 0 — is embedded faithfully.
-/

/-! ### Character classes (Python `re` semantics, ASCII inputs) -/

/-- Python `\w`: letters, digits and underscore. -/
def isWordCh (c : Char) : Bool := c.isAlphanum || c = '_'

/-- Python `\s` (ASCII): space, tab, newline, vertical tab, form feed, carriage return. -/
def isSpaceCh (c : Char) : Bool :=
  c = ' ' || c = '\t' || c = '\n' || c = '\x0b' || c = '\x0c' || c = '\r'

def isDigitCh (c : Char) : Bool := c.isDigit

def isLowerCh (c : Char) : Bool := 'a' ≤ c && c ≤ 'z'

def isUpperCh (c : Char) : Bool := 'A' ≤ c && c ≤ 'Z'

/-- ASCII lowercasing, as `str.lower()` on the texts handled by the program. -/
def lowerStr (s : String) : String := String.mk (s.toList.map Char.toLower)

/-! ### List-of-char utilities -/

/-- `pat` is a prefix of `l`. -/
def listStartsWith : List Char → List Char → Bool
  | [], _ => true
  | _ :: _, [] => false
  | p :: ps, c :: cs => p = c && listStartsWith ps cs

/-- Python's substring test `needle in hay`. -/
def listHasSub (needle : List Char) : List Char → Bool
  | [] => needle.isEmpty
  | c :: rest => listStartsWith needle (c :: rest) || listHasSub needle rest

/-- Python's `needle in hay` on strings. -/
def strHasSub (needle hay : String) : Bool := listHasSub needle.toList hay.toList

/-- Fuel-driven worker for `countOcc`. The fuel is the length of the text,
which suffices because every step consumes at least one character. -/
def countOccGo (needle : List Char) : ℕ → List Char → ℕ
  | 0, _ => 0
  | _, [] => 0
  | fuel + 1, c :: rest =>
    if listStartsWith needle (c :: rest) then
      1 + countOccGo needle fuel (List.drop needle.length (c :: rest))
    else
      countOccGo needle fuel rest

/-- Python `str.count`: number of non-overlapping occurrences, scanning left
to right (the needles used by the program are never empty). -/
def countOcc (needle hay : List Char) : ℕ := countOccGo needle hay.length hay

/-- Python `str.count` on strings. -/
def strCount (hay needle : String) : ℕ := countOcc needle.toList hay.toList

/-- Fuel-driven worker for `replaceAll`. -/
def replaceAllGo (needle repl : List Char) : ℕ → List Char → List Char
  | 0, l => l
  | _, [] => []
  | fuel + 1, c :: rest =>
    if 0 < needle.length && listStartsWith needle (c :: rest) then
      repl ++ replaceAllGo needle repl fuel (List.drop needle.length (c :: rest))
    else
      c :: replaceAllGo needle repl fuel rest

/-- Python `str.replace`: replace every non-overlapping occurrence. -/
def replaceAll (needle repl l : List Char) : List Char := replaceAllGo needle repl l.length l

/-- Worker for `splitWs`: `cur` is the current word reversed, `acc` the words
found so far. -/
def splitWsGo (cur : List Char) (acc : List (List Char)) : List Char → List (List Char)
  | [] => if cur.isEmpty then acc else acc ++ [cur.reverse]
  | c :: rest =>
    if isSpaceCh c then
      splitWsGo [] (if cur.isEmpty then acc else acc ++ [cur.reverse]) rest
    else
      splitWsGo (c :: cur) acc rest

/-- Python `str.split()` with no argument: split on whitespace runs and drop
empty pieces. -/
def splitWs (l : List Char) : List (List Char) := splitWsGo [] [] l

/-- Worker for `splitOnChar`. -/
def splitOnCharGo (sep : Char) (cur : List Char) (acc : List (List Char)) :
    List Char → List (List Char)
  | [] => acc ++ [cur.reverse]
  | c :: rest =>
    if c = sep then splitOnCharGo sep [] (acc ++ [cur.reverse]) rest
    else splitOnCharGo sep (c :: cur) acc rest

/-- Python `str.split(sep)` for a one-character separator (keeps empty pieces). -/
def splitOnChar (sep : Char) (l : List Char) : List (List Char) := splitOnCharGo sep [] [] l

/-- Fuel-driven worker for `collapseWs`. -/
def collapseWsGo : ℕ → List Char → List Char
  | 0, l => l
  | _, [] => []
  | fuel + 1, c :: rest =>
    if isSpaceCh c then ' ' :: collapseWsGo fuel (rest.dropWhile isSpaceCh)
    else c :: collapseWsGo fuel rest

/-- Python `re.sub(r'\s+', ' ', s)`: each maximal whitespace run becomes one space. -/
def collapseWs (l : List Char) : List Char := collapseWsGo l.length l

/-- Numeric value of a list of decimal digits. -/
def digitsToNat (l : List Char) : ℕ := l.foldl (fun a c => a * 10 + (c.toNat - 48)) 0

/-- Maximum of a list of naturals (Python `max` on a non-empty list; 0 on `[]`,
which the program never hits because it guards on non-emptiness). -/
def maxList (l : List ℕ) : ℕ := l.foldl max 0

/-! ### Generic scanners for the concrete regular expressions

`searchAt` models `re.search`: try a position matcher at every position, left
to right, keeping track of the previous character (needed for `\b`).
`scanCountGo`/`scanListGo` model `re.findall`: non-overlapping matches
collected left to right, each matcher reporting how many characters it
consumed. -/

def searchAt (m : Option Char → List Char → Option α) : Option Char → List Char → Option α
  | prev, [] => m prev []
  | prev, c :: rest =>
    match m prev (c :: rest) with
    | some a => some a
    | none => searchAt m (some c) rest

/-- Count the `re.findall` matches of an ordered list of alternatives; each
alternative returns the number of characters consumed (always positive for the
patterns embedded here). -/
def scanCountGo (alts : List (List Char → Option ℕ)) : ℕ → List Char → ℕ
  | 0, _ => 0
  | _, [] => 0
  | fuel + 1, c :: rest =>
    match alts.findSome? (fun f => f (c :: rest)) with
    | some k =>
      if k = 0 then scanCountGo alts fuel rest
      else 1 + scanCountGo alts fuel (List.drop k (c :: rest))
    | none => scanCountGo alts fuel rest

def scanCount (alts : List (List Char → Option ℕ)) (l : List Char) : ℕ :=
  scanCountGo alts l.length l

/-- Collect the captures of the `re.findall` matches of a single matcher that
returns a capture together with the number of characters consumed. -/
def scanListGo (m : List Char → Option (α × ℕ)) : ℕ → List Char → List α
  | 0, _ => []
  | _, [] => []
  | fuel + 1, c :: rest =>
    match m (c :: rest) with
    | some (a, k) =>
      if k = 0 then scanListGo m fuel rest
      else a :: scanListGo m fuel (List.drop k (c :: rest))
    | none => scanListGo m fuel rest

def scanList (m : List Char → Option (α × ℕ)) (l : List Char) : List α :=
  scanListGo m l.length l

/-- A `\b`-delimited literal occurrence: some split of the text has `pat` in
the middle with a word/non-word transition on each side (Python
`re.search(r'\b' + re.escape(pat) + r'\b', text)`). -/
def boundaryOk (a b : Option Char) : Bool :=
  (a.elim false isWordCh) != (b.elim false isWordCh)

def wordBoundedAt (pat : List Char) (prev : Option Char) (l : List Char) : Bool :=
  listStartsWith pat l &&
    boundaryOk prev pat.head? &&
    boundaryOk pat.getLast? (List.drop pat.length l).head?

def hasWordBoundedGo (pat : List Char) : Option Char → List Char → Bool
  | prev, [] => wordBoundedAt pat prev []
  | prev, c :: rest => wordBoundedAt pat prev (c :: rest) || hasWordBoundedGo pat (some c) rest

def hasWordBounded (pat text : List Char) : Bool := hasWordBoundedGo pat none text

/-! ## `EnhancedSimilarityChecker` (src/utils/improved_similarity_checker.py) -/

/-- The skill taxonomy `self.skill_keywords`, flattened in source order into
`self.all_skills` (a Python set: `toFinset` performs the deduplication of the
repeated entry `sql`). -/
def skillKeywordsFlat : List String :=
  ["python", "java", "javascript", "c++", "r", "scala", "go", "rust", "sql", "typescript",
   "tensorflow", "pytorch", "keras", "scikit-learn", "xgboost", "lightgbm", "catboost",
   "spark", "hadoop", "hive", "kafka", "flink", "airflow",
   "aws", "azure", "gcp", "google cloud", "s3", "ec2", "sagemaker", "lambda",
   "sql", "postgresql", "mysql", "mongodb", "redis", "cassandra", "snowflake", "redshift",
   "machine learning", "deep learning", "nlp", "computer vision", "neural network",
   "supervised learning", "unsupervised learning", "reinforcement learning", "regression",
   "classification", "clustering", "cnn", "rnn", "lstm", "transformer", "bert", "gpt",
   "git", "docker", "kubernetes", "jenkins", "ci/cd", "jira", "linux",
   "tableau", "power bi", "plotly", "matplotlib", "seaborn", "looker", "d3.js",
   "statistics", "probability", "hypothesis testing", "a/b testing", "statistical analysis",
   "regression analysis", "time series", "forecasting"]

/-- `preprocess_text`: lowercase, replace characters outside
`[a-zA-Z0-9\s+#.]` by a space, rewrite `c++`/`c#`/`.net`, collapse whitespace
via `' '.join(text.split())`. -/
def preprocessText (s : String) : String :=
  let l := s.toList.map Char.toLower
  let l := l.map (fun c =>
    if c.isAlphanum || isSpaceCh c || c = '+' || c = '#' || c = '.' then c else ' ')
  let l := replaceAll "c++".toList "cplusplus".toList l
  let l := replaceAll "c#".toList "csharp".toList l
  let l := replaceAll ".net".toList "dotnet".toList l
  String.mk (String.intercalate " " ((splitWs l).map String.mk)).toList

/-- `extract_skills`: word-boundary, case-insensitive presence of each
taxonomy term in the raw text. -/
def extractSkills (text : String) : Finset String :=
  (skillKeywordsFlat.filter
    (fun skill => hasWordBounded (skill.toList.map Char.toLower) (text.toList.map Char.toLower))).toFinset

/-- `calculate_skill_match_score`. -/
def calculateSkillMatchScore (resumeText jdText : String) : ℚ :=
  let resumeSkills := extractSkills resumeText
  let jdSkills := extractSkills jdText
  if jdSkills = ∅ then 0
  else
    let matchedSkills := resumeSkills ∩ jdSkills
    let skillMatchRatio : ℚ := (matchedSkills.card : ℚ) / (jdSkills.card : ℚ)
    let extraSkills := resumeSkills \ jdSkills
    let extraBonus : ℚ := min ((extraSkills.card : ℚ) * 0.02) 0.1
    min ((skillMatchRatio * 100) + (extraBonus * 100)) 100

/-- `calculate_tfidf_score`.  The sklearn vectorisation and cosine similarity
are external floating-point code; their outcome is the `sim` parameter:
`some s` models a successful computation returning cosine similarity `s`
(which is non-negative for TF-IDF vectors), `none` models an exception caught
by the `except` branch, which returns 0. -/
def calculateTfidfScore (sim : Option ℚ) (resumeText jdText : String) : ℚ :=
  if preprocessText resumeText = "" || preprocessText jdText = "" then 0
  else
    match sim with
    | none => 0
    | some s => min (s * 1.5) 0.95 * 100

/-- The fixed stop-word set of `calculate_keyword_density_score`. -/
def commonWords : List String :=
  ["the", "and", "for", "with", "this", "that", "from", "have",
   "has", "had", "are", "was", "were", "will", "would", "could",
   "should", "may", "might", "must", "can", "our", "your", "their",
   "about", "into", "through", "during", "before", "after", "above",
   "below", "between", "under", "again", "further", "then", "once"]

/-- The word set of a preprocessed text: `set(self.preprocess_text(t).split())`. -/
def textWordSet (t : String) : Finset String :=
  ((splitWs (preprocessText t).toList).map String.mk).toFinset

/-- The significant-keyword set of the job text: words minus stop words,
keeping only words of length `> 2`. -/
def jdKeywordSet (jdText : String) : Finset String :=
  (textWordSet jdText \ commonWords.toFinset).filter (fun w => 2 < w.length)

/-- `calculate_keyword_density_score` (the bonus branch uses the integer
difference, hence `ℤ`). -/
def calculateKeywordDensityScore (resumeText jdText : String) : ℚ :=
  let jdKeywords := jdKeywordSet jdText
  let resumeWords := textWordSet resumeText
  if jdKeywords = ∅ then 50
  else
    let matchedKeywords := resumeWords ∩ jdKeywords
    let baseScore : ℚ := ((matchedKeywords.card : ℚ) / (jdKeywords.card : ℚ)) * 100
    let extraKeywords : ℤ := (matchedKeywords.card : ℤ) - (jdKeywords.card : ℤ)
    if 0 < extraKeywords then
      let bonus : ℚ := min ((extraKeywords : ℚ) * 0.5) 15
      min (baseScore + bonus) 100
    else baseScore

/-- Matcher for one occurrence of `(\d+)[\+]?\s*(?:year|yr)s?` at the head of
the list: returns the captured number and the number of characters consumed.
The digit capture is always the maximal digit run (a shorter run would leave a
digit where `[\+]?\s*(?:year|yr)` must match, which is impossible). -/
def matchExpAt (l : List Char) : Option (ℕ × ℕ) :=
  let ds := l.takeWhile isDigitCh
  if ds.isEmpty then none
  else
    let rest1 := l.drop ds.length
    let (plusLen, rest2) :=
      match rest1 with
      | '+' :: r => (1, r)
      | r => (0, r)
    let sp := rest2.takeWhile isSpaceCh
    let rest3 := rest2.drop sp.length
    let yearLen : Option ℕ :=
      if listStartsWith "year".toList rest3 then some 4
      else if listStartsWith "yr".toList rest3 then some 2
      else none
    match yearLen with
    | none => none
    | some yl =>
      let rest4 := rest3.drop yl
      let sLen := match rest4 with | 's' :: _ => 1 | _ => 0
      some (digitsToNat ds, ds.length + plusLen + sp.length + yl + sLen)

/-- `re.findall(r'(\d+)[\+]?\s*(?:year|yr)s?', text)` as a list of captured
numbers. -/
def findExpYears (text : String) : List ℕ := scanList matchExpAt text.toList

/-- The achievement-verb list of `calculate_experience_score`. -/
def achievementKeywords : List String :=
  ["developed", "built", "created", "led", "managed",
   "implemented", "designed", "architected", "deployed",
   "achieved", "delivered", "launched", "optimized"]

/-- Matcher: maximal digit run followed by a given literal character
(`\d+%` / `\d+\+`; a shorter digit run would leave a digit where the literal
must be, so only the maximal run can match). -/
def digitsThenChar (c : Char) (l : List Char) : Option ℕ :=
  let ds := l.takeWhile isDigitCh
  if ds.isEmpty then none
  else
    match l.drop ds.length with
    | d :: _ => if d = c then some (ds.length + 1) else none
    | [] => none

/-- Matcher for `\$\d+`. -/
def dollarDigits (l : List Char) : Option ℕ :=
  match l with
  | '$' :: rest =>
    let ds := rest.takeWhile isDigitCh
    if ds.isEmpty then none else some (1 + ds.length)
  | _ => none

/-- Index (0-based) of the last digit of a list, if any. -/
def lastDigitIdx (l : List Char) : Option ℕ :=
  (l.enum.filter (fun p => isDigitCh p.2)).getLast?.map Prod.fst

/-- Matcher for `lit.*\d+` (Python `.` does not cross a newline): the literal,
then — after greedy backtracking — everything up to and including the last
digit of the current line. -/
def litDotStarDigits (lit : List Char) (l : List Char) : Option ℕ :=
  if listStartsWith lit l then
    let seg := (l.drop lit.length).takeWhile (fun c => c ≠ '\n')
    match lastDigitIdx seg with
    | some i => some (lit.length + i + 1)
    | none => none
  else none

/-- The ordered alternatives of
`re.findall(r'\d+%|\d+\+|\$\d+|increased.*\d+|reduced.*\d+|improved.*\d+', text)`. -/
def quantifiedAlts : List (List Char → Option ℕ) :=
  [digitsThenChar '%', digitsThenChar '+', dollarDigits,
   litDotStarDigits "increased".toList,
   litDotStarDigits "reduced".toList,
   litDotStarDigits "improved".toList]

/-- The achievement-verb occurrence count of `calculate_experience_score`
(applied to the lowercased resume). -/
def achievementCountOf (resumeLower : String) : ℕ :=
  (achievementKeywords.map (fun k => strCount resumeLower k)).sum

/-- The quantified-achievement match count of `calculate_experience_score`
(applied to the lowercased resume). -/
def quantifiedCountOf (resumeLower : String) : ℕ :=
  scanCount quantifiedAlts resumeLower.toList

/-- `calculate_experience_score`. -/
def calculateExperienceScore (resumeText jdText : String) : ℚ :=
  let resumeExp := findExpYears (lowerStr resumeText)
  let jdExp := findExpYears (lowerStr jdText)
  let base : ℚ :=
    if resumeExp ≠ [] ∧ jdExp ≠ [] then
      let maxResumeExp := maxList resumeExp
      let requiredExp := maxList jdExp
      if (requiredExp : ℚ) ≤ (maxResumeExp : ℚ) then 100
      else if (requiredExp : ℚ) * 0.8 ≤ (maxResumeExp : ℚ) then 85
      else if (requiredExp : ℚ) * 0.6 ≤ (maxResumeExp : ℚ) then 70
      else 60
    else if resumeExp ≠ [] then
      let years := maxList resumeExp
      if 5 ≤ years then 90
      else if 3 ≤ years then 80
      else if 1 ≤ years then 70
      else 50
    else 50
  let score := base + min ((achievementCountOf (lowerStr resumeText) : ℚ) * 1.5) 15
  let score := score + min ((quantifiedCountOf (lowerStr resumeText) : ℚ) * 2) 10
  min score 100

/-- The keyword/score table of `calculate_education_score`, in source order. -/
def educationKeywordScores : List (String × ℚ) :=
  [("phd", 100), ("doctorate", 100), ("ph.d", 100),
   ("masters", 80), ("master", 80), ("msc", 80), ("ms", 80),
   ("mba", 70),
   ("bachelors", 60), ("bachelor", 60), ("bsc", 60), ("bs", 60),
   ("degree", 40)]

/-- The `max` accumulation over the keyword table (`resume_edu_score` /
`jd_edu_score` loops). -/
def eduFold (lowerText : String) : ℚ :=
  educationKeywordScores.foldl
    (fun acc p => if strHasSub p.1 lowerText then max acc p.2 else acc) 0

/-- `calculate_education_score`. -/
def calculateEducationScore (resumeText jdText : String) : ℚ :=
  let resumeEduScore := eduFold (lowerStr resumeText)
  let jdEduScore := eduFold (lowerStr jdText)
  if jdEduScore ≤ resumeEduScore then 100
  else if 0 < resumeEduScore then (resumeEduScore / max jdEduScore 1) * 100
  else 50

/-- Python's `round(x, 1)` on exact values: round-half-to-even at one decimal
(`⌊q * 10⌋` when the fractional part of `q * 10` is below one half, `⌊q * 10⌋ + 1`
when above, the even neighbour on a tie). -/
def pyRoundTenths (q : ℚ) : ℤ :=
  if q * 10 - ⌊q * 10⌋ < 1 / 2 then ⌊q * 10⌋
  else if 1 / 2 < q * 10 - ⌊q * 10⌋ then ⌊q * 10⌋ + 1
  else if ⌊q * 10⌋ % 2 = 0 then ⌊q * 10⌋ else ⌊q * 10⌋ + 1

def pyRound1 (q : ℚ) : ℚ := (pyRoundTenths q : ℚ) / 10

/-- Lines 255–260 of `calculate_weighted_score`: the conditional floor on the
content-similarity sub-score (`tfidf_score = max(tfidf_score, 60)` / `50`). -/
def tfidfFloorAdjust (skillScore tfidfScore : ℚ) : ℚ :=
  if 90 ≤ skillScore then max tfidfScore 60
  else if 80 ≤ skillScore then max tfidfScore 50
  else tfidfScore

/-- Lines 255–260 of `calculate_weighted_score`: the conditional floor on the
keyword-density sub-score (`keyword_score = max(keyword_score, 50)` / `40`). -/
def keywordFloorAdjust (skillScore keywordScore : ℚ) : ℚ :=
  if 90 ≤ skillScore then max keywordScore 50
  else if 80 ≤ skillScore then max keywordScore 40
  else keywordScore

/-- Lines 279–285 of `calculate_weighted_score`: the additive skill bonus
(`final_score = min(final_score + 8, 100)` / `+5` / `+3`). -/
def skillBonusAdjust (skillScore finalScore : ℚ) : ℚ :=
  if 95 ≤ skillScore then min (finalScore + 8) 100
  else if 85 ≤ skillScore then min (finalScore + 5) 100
  else if 75 ≤ skillScore then min (finalScore + 3) 100
  else finalScore

/-- Lines 287–293 of `calculate_weighted_score`: the final skill-tier floor
(`final_score = max(final_score, 75)` / `70` / `65`). -/
def skillFloorAdjust (skillScore finalScore : ℚ) : ℚ :=
  if 90 ≤ skillScore then max finalScore 75
  else if 80 ≤ skillScore then max finalScore 70
  else if 70 ≤ skillScore then max finalScore 65
  else finalScore

/-- Lines 253–295 of `calculate_weighted_score`: conditional floors on the
content/keyword sub-scores, fixed-weight combination, skill bonus, skill
floor, rounding. -/
def combineScores (skillScore tfidfScore0 keywordScore0 experienceScore educationScore : ℚ) : ℚ :=
  let tfidfScore := tfidfFloorAdjust skillScore tfidfScore0
  let keywordScore := keywordFloorAdjust skillScore keywordScore0
  let finalScore :=
    skillScore * 0.50 + tfidfScore * 0.20 + keywordScore * 0.15 +
    experienceScore * 0.10 + educationScore * 0.05
  pyRound1 (skillFloorAdjust skillScore (skillBonusAdjust skillScore finalScore))

/-- `calculate_weighted_score`, the `score()` entry point (parameterised by
the abstract TF-IDF cosine outcome, see `calculateTfidfScore`). -/
def calculateWeightedScore (sim : Option ℚ) (resumeText jdText : String) : ℚ :=
  combineScores
    (calculateSkillMatchScore resumeText jdText)
    (calculateTfidfScore sim resumeText jdText)
    (calculateKeywordDensityScore resumeText jdText)
    (calculateExperienceScore resumeText jdText)
    (calculateEducationScore resumeText jdText)

/-- `f"{score:.1f}"` for the non-negative one-decimal scores produced by
`calculate_weighted_score`. -/
def formatScore1 (q : ℚ) : String :=
  let n := pyRoundTenths q
  toString (n / 10) ++ "." ++ toString (n % 10)

/-- The module-level wrapper `calculate_similarity_score(jd_text, resume_text)`:
note the argument swap into `calculate_weighted_score(resume_text, jd_text)`
and the string result. -/
def calculateSimilarityScore (sim : Option ℚ) (jdText resumeText : String) : String :=
  formatScore1 (calculateWeightedScore sim resumeText jdText)

/-! ## Metadata extractor (src/utils/improved_metadata_extractor.py) -/

/-- `re.findall` with `\b`-sensitive matchers: collect every non-overlapping
match left to right, tracking the character preceding each position. -/
def scanPrevGo (m : Option Char → List Char → Option (α × ℕ)) :
    ℕ → Option Char → List Char → List α
  | 0, _, _ => []
  | _, _, [] => []
  | fuel + 1, prev, c :: rest =>
    match m prev (c :: rest) with
    | some (a, k) =>
      if k = 0 then scanPrevGo m fuel (some c) rest
      else a :: scanPrevGo m fuel ((List.take k (c :: rest)).getLast?) (List.drop k (c :: rest))
    | none => scanPrevGo m fuel (some c) rest

def scanPrev (m : Option Char → List Char → Option (α × ℕ)) (l : List Char) : List α :=
  scanPrevGo m l.length none l

/-- `[A-Za-z0-9._%+-]`, the local part class of the email pattern. -/
def isEmailC1 (c : Char) : Bool :=
  c.isAlphanum || c = '.' || c = '_' || c = '%' || c = '+' || c = '-'

/-- `[A-Za-z0-9.-]`, the domain class of the email pattern. -/
def isEmailC2 (c : Char) : Bool := c.isAlphanum || c = '.' || c = '-'

/-- `[A-Z|a-z]`: the (source-written) top-level-domain class — letters and `|`. -/
def isTldCh (c : Char) : Bool := isUpperCh c || isLowerCh c || c = '|'

/-- One match of `\b[A-Za-z0-9._%+-]+@[A-Za-z0-9.-]+\.[A-Z|a-z]{2,}\b`
starting at the head of `l`: the local part and the domain part up to the
literal `.` are forced to maximal runs (the characters that follow them,
`@` and `.`, are members of neither class only at the run ends), while the
position of the final `.` and the length of the TLD run backtrack greedily. -/
def matchEmailAt (prev : Option Char) (l : List Char) : Option (List Char × ℕ) :=
  let run1 := l.takeWhile isEmailC1
  if run1.isEmpty then none
  else if !boundaryOk prev run1.head? then none
  else
    match l.drop run1.length with
    | '@' :: rest2 =>
      let run2 := rest2.takeWhile isEmailC2
      let dotIdxs := ((run2.enum.filter (fun p => p.2 = '.')).map Prod.fst).reverse
      dotIdxs.findSome? (fun q =>
        if q = 0 then none
        else
          let tld := (rest2.drop (q + 1)).takeWhile isTldCh
          if tld.length < 2 then none
          else
            ((List.range (tld.length - 1)).map (fun i => tld.length - i)).findSome? (fun k =>
              let consumed := run1.length + 1 + q + 1 + k
              if boundaryOk ((tld.take k).getLast?) ((l.drop consumed).head?) then
                some (l.take consumed, consumed)
              else none))
    | _ => none

/-- `extract_email`: first match of the email pattern, else `"Not found"`. -/
def extractEmail (text : String) : String :=
  match scanPrev matchEmailAt text.toList with
  | m :: _ => String.mk m
  | [] => "Not found"

/-- `[-.\s]`, the separator class of the phone patterns. -/
def isPhoneSep (c : Char) : Bool := c = '-' || c = '.' || isSpaceCh c

/-- Greedy `c?`: the continuations after optionally consuming `c`, preferred
alternative first. -/
def optCh (c : Char) (l : List Char) : List (List Char) :=
  match l with
  | x :: r => if x = c then [r, l] else [l]
  | [] => [l]

/-- Greedy `[class]?`. -/
def optClassCh (p : Char → Bool) (l : List Char) : List (List Char) :=
  match l with
  | x :: r => if p x then [r, l] else [l]
  | [] => [l]

/-- `\d{n}`: exactly `n` digits. -/
def exactDigits (n : ℕ) (l : List Char) : Option (List Char) :=
  if n ≤ (l.takeWhile isDigitCh).length then some (l.drop n) else none

/-- Greedy `\d{lo,hi}`: the continuations for each admissible digit count,
longest first. -/
def digitsRange (lo hi : ℕ) (l : List Char) : List (List Char) :=
  let d := (l.takeWhile isDigitCh).length
  let m := min hi d
  if m < lo then []
  else (List.range (m - lo + 1)).map (fun i => l.drop (m - i))

/-- `r'\+?\d{1,3}[-.\s]?\(?\d{3}\)?[-.\s]?\d{3}[-.\s]?\d{4}'` at the head of
`l`; returns the number of characters consumed. -/
def matchPhoneA (l : List Char) : Option ℕ :=
  (optCh '+' l).findSome? (fun l1 =>
    (digitsRange 1 3 l1).findSome? (fun l2 =>
      (optClassCh isPhoneSep l2).findSome? (fun l3 =>
        (optCh '(' l3).findSome? (fun l4 =>
          (exactDigits 3 l4).bind (fun l5 =>
            (optCh ')' l5).findSome? (fun l6 =>
              (optClassCh isPhoneSep l6).findSome? (fun l7 =>
                (exactDigits 3 l7).bind (fun l8 =>
                  (optClassCh isPhoneSep l8).findSome? (fun l9 =>
                    (exactDigits 4 l9).map (fun l10 => l.length - l10.length))))))))))

/-- `r'\(?\d{3}\)?[-.\s]?\d{3}[-.\s]?\d{4}'`. -/
def matchPhoneB (l : List Char) : Option ℕ :=
  (optCh '(' l).findSome? (fun l1 =>
    (exactDigits 3 l1).bind (fun l2 =>
      (optCh ')' l2).findSome? (fun l3 =>
        (optClassCh isPhoneSep l3).findSome? (fun l4 =>
          (exactDigits 3 l4).bind (fun l5 =>
            (optClassCh isPhoneSep l5).findSome? (fun l6 =>
              (exactDigits 4 l6).map (fun l7 => l.length - l7.length)))))))

/-- `r'\d{3}[-.\s]?\d{3}[-.\s]?\d{4}'`. -/
def matchPhoneC (l : List Char) : Option ℕ :=
  (exactDigits 3 l).bind (fun l1 =>
    (optClassCh isPhoneSep l1).findSome? (fun l2 =>
      (exactDigits 3 l2).bind (fun l3 =>
        (optClassCh isPhoneSep l3).findSome? (fun l4 =>
          (exactDigits 4 l4).map (fun l5 => l.length - l5.length)))))

/-- `r'\+\d{10,15}'`. -/
def matchPhoneD (l : List Char) : Option ℕ :=
  match l with
  | '+' :: r => (digitsRange 10 15 r).head?.map (fun rest => l.length - rest.length)
  | _ => none

/-- `r'\d{10}'`. -/
def matchPhoneE (l : List Char) : Option ℕ :=
  (exactDigits 10 l).map (fun rest => l.length - rest.length)

/-- The ordered phone pattern list of `extract_phone`. -/
def phonePatterns : List (List Char → Option ℕ) :=
  [matchPhoneA, matchPhoneB, matchPhoneC, matchPhoneD, matchPhoneE]

/-- `extract_phone`: first pattern with a match wins; the first match is
whitespace-normalised (`re.sub(r'\s+', ' ', phone)`). -/
def extractPhone (text : String) : String :=
  match phonePatterns.findSome?
      (fun pm => searchAt (fun _ l => (pm l).map (fun k => l.take k)) none text.toList) with
  | some m => String.mk (collapseWs m)
  | none => "Not found"

/-- One capitalised word `[A-Z][a-z]+`: the word and the rest. -/
def parseCapWord (l : List Char) : Option (List Char × List Char) :=
  match l with
  | c :: r =>
    if isUpperCh c then
      let low := r.takeWhile isLowerCh
      if low.isEmpty then none else some (c :: low, r.drop low.length)
    else none
  | [] => none

/-- Greedily parse the `(?:\s[A-Z][a-z]+)*` groups: each group is its
separator character together with its word. -/
def parseCapGroupsGo : ℕ → List Char → List (Char × List Char)
  | 0, _ => []
  | _ + 1, [] => []
  | fuel + 1, c :: r =>
    if isSpaceCh c then
      match parseCapWord r with
      | some (w, rest) => (c, w) :: parseCapGroupsGo fuel rest
      | none => []
    else []

def parseCapGroups (l : List Char) : List (Char × List Char) := parseCapGroupsGo l.length l

/-- The text of the first word plus the first `k` groups. -/
def capSeqText (w0 : List Char) (groups : List (Char × List Char)) (k : ℕ) : List Char :=
  w0 ++ (groups.take k).foldr (fun g acc => g.1 :: g.2 ++ acc) []

/-- `r'\b([A-Z][a-z]+(?:\s[A-Z][a-z]+)*),\s*([A-Z]{2})\b'` at the head of `l`:
the star backtracks from the longest capitalised sequence down, looking for
the comma, the optional spaces, exactly two capitals and a trailing word
boundary.  Lowercase runs are maximal (shortening one leaves a lowercase
letter where `\s`, `,` or `[A-Z]` must match). -/
def matchLoc1 (prev : Option Char) (l : List Char) : Option ((String × String) × ℕ) :=
  match parseCapWord l with
  | none => none
  | some (w0, rest0) =>
    if !boundaryOk prev l.head? then none
    else
      let groups := parseCapGroups rest0
      ((List.range (groups.length + 1)).map (fun i => groups.length - i)).findSome? (fun k =>
        let city := capSeqText w0 groups k
        match l.drop city.length with
        | ',' :: r1 =>
          let sp := r1.takeWhile isSpaceCh
          (match r1.drop sp.length with
           | c1 :: c2 :: r2 =>
             if isUpperCh c1 && isUpperCh c2 && boundaryOk (some c2) r2.head? then
               some ((String.mk city, String.mk [c1, c2]),
                 city.length + 1 + sp.length + 2)
             else none
           | _ => none)
        | _ => none)

/-- `r'\b([A-Z][a-z]+(?:\s[A-Z][a-z]+)*),\s*([A-Z][a-z]+(?:\s[A-Z][a-z]+)*)\b'`:
as `matchLoc1` but the state is itself a capitalised sequence whose star also
backtracks until the trailing word boundary holds. -/
def matchLoc2 (prev : Option Char) (l : List Char) : Option ((String × String) × ℕ) :=
  match parseCapWord l with
  | none => none
  | some (w0, rest0) =>
    if !boundaryOk prev l.head? then none
    else
      let groups := parseCapGroups rest0
      ((List.range (groups.length + 1)).map (fun i => groups.length - i)).findSome? (fun k =>
        let city := capSeqText w0 groups k
        match l.drop city.length with
        | ',' :: r1 =>
          let sp := r1.takeWhile isSpaceCh
          let r2 := r1.drop sp.length
          (match parseCapWord r2 with
           | none => none
           | some (sw0, srest0) =>
             let sgroups := parseCapGroups srest0
             ((List.range (sgroups.length + 1)).map (fun i => sgroups.length - i)).findSome?
               (fun k2 =>
                 let state := capSeqText sw0 sgroups k2
                 let consumed := city.length + 1 + sp.length + state.length
                 if boundaryOk state.getLast? ((l.drop consumed).head?) then
                   some ((String.mk city, String.mk state), consumed)
                 else none))
        | _ => none)

/-- The keyword list that makes `extract_location` look near a line. -/
def locationKeywords : List String :=
  ["location:", "address:", "residence:", "based in:", "location"]

/-- All `(city, state)` captures of one location pattern in a text. -/
def findAllLocs (m : Option Char → List Char → Option ((String × String) × ℕ))
    (t : String) : List (String × String) :=
  scanPrev m t.toList

/-- The keyword-window phase of `extract_location`: at each line containing a
location keyword, run both patterns over the 3-line window and return the
first capture found; otherwise continue with the next line. -/
def locKeywordScan : List String → Option String
  | [] => none
  | ln :: rest =>
    (if locationKeywords.any (fun k => strHasSub k (lowerStr ln)) then
      let searchText := String.intercalate " " (ln :: rest.take 2)
      match findAllLocs matchLoc1 searchText with
      | (city, st) :: _ => some (city ++ ", " ++ st)
      | [] =>
        match findAllLocs matchLoc2 searchText with
        | (city, st) :: _ => some (city ++ ", " ++ st)
        | [] => none
    else none).orElse (fun _ => locKeywordScan rest)

/-- The whole-text fallback filter of `extract_location`. -/
def locAccept (p : String × String) : Bool :=
  2 < p.1.length && !(p.1.toList ≠ [] && p.1.toList.all isDigitCh)

/-- `extract_location`. -/
def extractLocation (text : String) : String :=
  let lines := (splitOnChar '\n' text.toList).map String.mk
  match locKeywordScan lines with
  | some s => s
  | none =>
    match (findAllLocs matchLoc1 text).filter locAccept with
    | (city, st) :: _ => city ++ ", " ++ st
    | [] =>
      match (findAllLocs matchLoc2 text).filter locAccept with
      | (city, st) :: _ => city ++ ", " ++ st
      | [] => "Not found"

/-- The `education_levels` table of `extract_education`, in source order. -/
def educationLevels : List (String × List String) :=
  [("PhD", ["phd", "ph.d", "doctorate", "doctoral"]),
   ("Masters", ["masters", "master", "msc", "ms", "mba", "ma"]),
   ("Bachelors", ["bachelors", "bachelor", "bsc", "bs", "ba", "beng", "btech"])]

/-- `extract_education`: append each level whose keyword list has a substring
hit in the lowercased text; default `['Not specified']`. -/
def extractEducation (text : String) : List String :=
  let textLower := lowerStr text
  let found := educationLevels.foldr
    (fun p acc => if p.2.any (fun k => strHasSub k textLower) then p.1 :: acc else acc) []
  if found = [] then ["Not specified"] else found

/-! ## `AIAnalysisEngine` (src/utils/ai_analysis_engine.py) -/

/-- `self.critical_skills` flattened in dict order (`sql` occurs twice, as in
the source). -/
def criticalSkillsFlat : List String :=
  ["python", "java", "javascript", "sql", "r",
   "machine learning", "deep learning", "tensorflow", "pytorch", "scikit-learn",
   "aws", "azure", "gcp", "google cloud",
   "spark", "hadoop", "kafka",
   "sql", "postgresql", "mongodb", "mysql"]

/-- Alternatives of `r'\d+%|\d+\+|increased.*\d+|reduced.*\d+|improved.*\d+'`
(the strengths variant, without `\$\d+`). -/
def strengthNumAlts : List (List Char → Option ℕ) :=
  [digitsThenChar '%', digitsThenChar '+',
   litDotStarDigits "increased".toList,
   litDotStarDigits "reduced".toList,
   litDotStarDigits "improved".toList]

/-- Alternatives of `r'\d+%|\d+\+'`. -/
def shortNumAlts : List (List Char → Option ℕ) :=
  [digitsThenChar '%', digitsThenChar '+']

/-- One match of `r'(\d+)\+?\s*years?\s+(?:of\s+)?experience'` at the head of
the list, returning the captured number.  The digit run, the whitespace runs
and the optional pieces resolve deterministically except for the optional
`of\s+` group, whose two alternatives are tried in greedy order. -/
def matchYearsExpAt (l : List Char) : Option ℕ :=
  let ds := l.takeWhile isDigitCh
  if ds.isEmpty then none
  else
    let rest1 := l.drop ds.length
    let rest2 := match rest1 with | '+' :: r => r | r => r
    let rest3 := rest2.dropWhile isSpaceCh
    if listStartsWith "year".toList rest3 then
      let afterYear := rest3.drop 4
      let tryTail := fun (t : List Char) =>
        let sp2 := t.takeWhile isSpaceCh
        if sp2.isEmpty then none
        else
          let t2 := t.drop sp2.length
          let viaOf :=
            if listStartsWith "of".toList t2 then
              let sp3 := (t2.drop 2).takeWhile isSpaceCh
              if sp3.isEmpty then none
              else if listStartsWith "experience".toList ((t2.drop 2).drop sp3.length) then
                some (digitsToNat ds)
              else none
            else none
          match viaOf with
          | some v => some v
          | none => if listStartsWith "experience".toList t2 then some (digitsToNat ds) else none
      match afterYear with
      | 's' :: afterS =>
        (match tryTail afterS with
         | some v => some v
         | none => tryTail afterYear)
      | _ => tryTail afterYear
    else none

/-- `re.search(r'(\d+)\+?\s*years?\s+(?:of\s+)?experience', text)`. -/
def searchYearsExp (text : String) : Option ℕ :=
  searchAt (fun _ l => matchYearsExpAt l) none text.toList

/-- `_identify_strengths` (both arguments already lowercased by
`analyze_resume`). -/
def identifyStrengths (resumeText jdText : String) : List String :=
  let matchedCritical := criticalSkillsFlat.filter
    (fun s => strHasSub s resumeText && strHasSub s jdText)
  let s1 : List String :=
    if matchedCritical = [] then []
    else if 5 ≤ matchedCritical.length then
      ["Strong technical foundation with expertise in " ++
        String.intercalate ", " (matchedCritical.take 5)]
    else
      ["Proficiency in key technologies: " ++ String.intercalate ", " matchedCritical]
  let numbers := scanCount strengthNumAlts resumeText.toList
  let s2 : List String :=
    if 5 ≤ numbers then ["Strong track record of quantifiable achievements and measurable impact"]
    else if 3 ≤ numbers then ["Demonstrates results with specific metrics and outcomes"]
    else []
  let leadershipCount :=
    ((["led", "managed", "directed", "coordinated", "mentored", "supervised"] :
      List String).map (fun t => strCount resumeText t)).sum
  let s3 : List String :=
    if 3 ≤ leadershipCount then ["Proven leadership and team management experience"] else []
  let projectCount :=
    ((["project", "developed", "built", "implemented", "deployed", "created"] :
      List String).map (fun t => strCount resumeText t)).sum
  let s4 : List String :=
    if 5 ≤ projectCount then
      ["Extensive hands-on project experience and implementation skills"]
    else []
  let advancedFound := (["deep learning", "neural network", "nlp", "computer vision",
    "transformer", "bert", "gpt", "reinforcement learning"] : List String).filter
    (fun s => strHasSub s resumeText)
  let s5 : List String :=
    if 2 ≤ advancedFound.length then
      ["Advanced expertise in cutting-edge technologies: " ++
        String.intercalate ", " (advancedFound.take 3)]
    else []
  let s6 : List String :=
    match searchYearsExp resumeText with
    | some years =>
      if 5 ≤ years then
        ["Substantial industry experience (" ++ toString years ++ "+ years)"]
      else if 3 ≤ years then
        ["Solid professional experience (" ++ toString years ++ " years)"]
      else []
    | none => []
  let s7 : List String :=
    if (["phd", "ph.d", "masters", "master", "msc"] : List String).any
        (fun e => strHasSub e resumeText) then
      ["Strong educational background in relevant field"]
    else []
  let cloudFound := (["aws", "azure", "gcp", "google cloud"] : List String).filter
    (fun c => strHasSub c resumeText && strHasSub c jdText)
  let s8 : List String :=
    if cloudFound = [] then []
    else ["Experience with cloud platforms: " ++ String.intercalate ", " cloudFound]
  let softFound := (["communication", "collaboration", "problem-solving", "analytical",
    "team player", "leadership"] : List String).filter (fun s => strHasSub s resumeText)
  let s9 : List String :=
    if 2 ≤ softFound.length then
      ["Well-rounded professional with strong " ++
        String.intercalate " and " (softFound.take 2) ++ " skills"]
    else []
  let strengths := s1 ++ s2 ++ s3 ++ s4 ++ s5 ++ s6 ++ s7 ++ s8 ++ s9
  let strengths :=
    if strengths = [] then
      ["Relevant experience in the field",
       "Technical skills aligned with role requirements",
       "Professional background matches industry standards"]
    else strengths
  strengths.take 6

/-- `_identify_weaknesses` (both arguments already lowercased). -/
def identifyWeaknesses (resumeText jdText : String) : List String :=
  let missingCritical := criticalSkillsFlat.filter
    (fun s => strHasSub s jdText && !strHasSub s resumeText)
  let w1 : List String :=
    if missingCritical = [] then []
    else if missingCritical.length ≤ 2 then
      ["Missing experience with: " ++ String.intercalate ", " missingCritical]
    else
      ["Limited exposure to key technologies: " ++
        String.intercalate ", " (missingCritical.take 3)]
  let numbers := scanCount shortNumAlts resumeText.toList
  let w2 : List String :=
    if numbers < 3 then
      ["Could strengthen resume with more quantifiable achievements and metrics"]
    else []
  let w3 : List String :=
    if (["aws", "azure", "gcp", "cloud"] : List String).any (fun c => strHasSub c jdText) &&
        !(["aws", "azure", "gcp", "cloud"] : List String).any (fun c => strHasSub c resumeText) then
      ["Limited cloud platform experience (AWS, Azure, or GCP)"]
    else []
  let mlTerms : List String :=
    ["machine learning", "deep learning", "neural network", "tensorflow", "pytorch"]
  let w4 : List String :=
    if mlTerms.any (fun t => strHasSub t jdText) &&
        !mlTerms.any (fun t => strHasSub t resumeText) then
      ["Insufficient machine learning or AI experience"]
    else []
  let bigData : List String := ["spark", "hadoop", "kafka", "hive", "flink"]
  let w5 : List String :=
    if bigData.any (fun t => strHasSub t jdText) &&
        !bigData.any (fun t => strHasSub t resumeText) then
      ["Limited big data processing experience"]
    else []
  let verbCount :=
    ((["led", "managed", "developed", "implemented", "architected",
       "optimized", "engineered", "designed"] : List String).map
      (fun v => strCount resumeText v)).sum
  let w6 : List String :=
    if verbCount < 5 then ["Could use stronger action verbs to describe accomplishments"]
    else []
  let wordCount := (splitWs resumeText.toList).length
  let w7 : List String :=
    if wordCount < 400 then
      ["Resume appears brief - consider adding more detail about experiences"]
    else if 1500 < wordCount then
      ["Resume is lengthy - focus on most relevant experiences"]
    else []
  let certKeywords : List String := ["certified", "certification", "certificate"]
  let w8 : List String :=
    if certKeywords.any (fun c => strHasSub c jdText) &&
        !certKeywords.any (fun c => strHasSub c resumeText) then
      ["No relevant certifications mentioned"]
    else []
  let weaknesses := w1 ++ w2 ++ w3 ++ w4 ++ w5 ++ w6 ++ w7 ++ w8
  let weaknesses :=
    if weaknesses = [] then
      ["Consider adding more specific project examples",
       "Could highlight leadership experiences more prominently",
       "May benefit from including relevant certifications"]
    else weaknesses
  weaknesses.take 5

/-- `_generate_recommendations` (texts already lowercased). -/
def generateRecommendations (resumeText _jdText : String) (matchScore : ℚ)
    (weaknesses : List String) : List String :=
  let r1 : List String :=
    if matchScore < 60 then
      ["Strongly consider tailoring your resume to highlight skills matching this specific role",
       "Add more keywords from the job description naturally into your experience descriptions"]
    else if matchScore < 75 then
      ["Good foundation - focus on emphasizing your most relevant experiences",
       "Add specific examples that demonstrate required skills in action"]
    else
      ["Strong match! Ensure your top achievements are prominently featured",
       "Consider adding a summary section highlighting your key qualifications"]
  let weaknessText := lowerStr (String.intercalate " " weaknesses)
  let r2 : List String :=
    if strHasSub "quantifiable" weaknessText || strHasSub "metrics" weaknessText then
      ["Add numbers and metrics to your achievements (e.g., \x2725% improvement\x27, \x27saved $50K\x27, \x27led team of 8\x27)"]
    else []
  let r3 : List String :=
    if strHasSub "cloud" weaknessText then
      ["Highlight any cloud-related projects or experiences, even if limited"]
    else []
  let r4 : List String :=
    if strHasSub "machine learning" weaknessText || strHasSub "ml" weaknessText then
      ["Include any ML coursework, projects, or self-learning experiences"]
    else []
  let r5 : List String :=
    if strHasSub "action verbs" weaknessText then
      ["Start bullet points with strong action verbs: Led, Engineered, Architected, Optimized, Implemented"]
    else []
  let r6 : List String :=
    if strHasSub "certifications" weaknessText then
      ["Consider obtaining relevant certifications (AWS, Azure, TensorFlow, etc.) to strengthen your profile"]
    else []
  let recs := r1 ++ r2 ++ r3 ++ r4 ++ r5 ++ r6
  let recs :=
    if !strHasSub "keywords" (String.intercalate " " recs) then
      recs ++ ["Naturally incorporate industry-specific keywords from the job posting"]
    else recs
  let recs := recs ++ ["Ensure your LinkedIn profile matches your resume for consistency"]
  let numbers := scanCount shortNumAlts resumeText.toList
  let recs :=
    if numbers < 5 then
      recs ++ ["Quantify your impact wherever possible - numbers grab attention"]
    else recs
  let recs := recs ++
    ["Use standard section headers (Experience, Education, Skills) for ATS compatibility"]
  recs.take 8

/-- `analyze_resume`: lowercase both texts, then run the three phases. -/
def analyzeResume (resumeText jdText : String) (matchScore : ℚ) :
    List String × List String × List String :=
  let resumeLower := lowerStr resumeText
  let jdLower := lowerStr jdText
  let strengths := identifyStrengths resumeLower jdLower
  let weaknesses := identifyWeaknesses resumeLower jdLower
  let recommendations := generateRecommendations resumeLower jdLower matchScore weaknesses
  (strengths, weaknesses, recommendations)

/-! ## Spec-side definitions

Definitions written from the wording of the specification/claims, to be
compared with the embeddings above. -/

/-- The skill-match formula exactly as the specification words it:
0 when the job description has no taxonomy skill, otherwise
`min(100, (|matched| / |jd_skills|) * 100 + min(0.02 * |extra|, 0.10) * 100)`. -/
def specSkillMatchScore (resumeText jdText : String) : ℚ :=
  let resumeSkills := extractSkills resumeText
  let jdSkills := extractSkills jdText
  if jdSkills = ∅ then 0
  else
    let matched := resumeSkills ∩ jdSkills
    let extra := resumeSkills \ jdSkills
    min 100 (((matched.card : ℚ) / (jdSkills.card : ℚ)) * 100 +
      min (0.02 * (extra.card : ℚ)) 0.10 * 100)

/-- A text contains one of the thirteen education keywords of
`calculate_education_score` (as a lowercase substring). -/
def hasEduScoreKeyword (t : String) : Bool :=
  educationKeywordScores.any (fun p => strHasSub p.1 (lowerStr t))

/-- The bonus the claim describes for `calculate_experience_score`: 1.5 per
achievement-verb occurrence capped at 15, plus 2 per quantified-achievement
match capped at 10. -/
def claimedExperienceBonus (r : String) : ℚ :=
  min ((achievementCountOf (lowerStr r) : ℚ) * 1.5) 15 +
    min ((quantifiedCountOf (lowerStr r) : ℚ) * 2) 10

/-! ## Helper lemmas -/

theorem pyRoundTenths_cases (q : ℚ) :
    pyRoundTenths q = ⌊q * 10⌋ ∨ pyRoundTenths q = ⌊q * 10⌋ + 1 := by
  unfold pyRoundTenths
  split_ifs <;> simp

theorem pyRound1_ge_int (n : ℤ) (q : ℚ) (h : (n : ℚ) ≤ q) : (n : ℚ) ≤ pyRound1 q := by
  have hf : 10 * n ≤ ⌊q * 10⌋ := by
    rw [Int.le_floor]
    push_cast
    linarith
  have hr : (10 * n : ℤ) ≤ pyRoundTenths q := by
    rcases pyRoundTenths_cases q with h1 | h1 <;> omega
  unfold pyRound1
  rw [le_div_iff₀ (by norm_num : (0:ℚ) < 10)]
  calc (n : ℚ) * 10 = ((10 * n : ℤ) : ℚ) := by push_cast; ring
    _ ≤ (pyRoundTenths q : ℚ) := by exact_mod_cast hr

theorem pyRound1_le_int (n : ℤ) (q : ℚ) (h : q ≤ (n : ℚ)) : pyRound1 q ≤ (n : ℚ) := by
  have h10 : q * 10 ≤ ((10 * n : ℤ) : ℚ) := by push_cast; linarith
  have hf : ⌊q * 10⌋ ≤ 10 * n := by
    have hcast : ⌊((10 * n : ℤ) : ℚ)⌋ = 10 * n := Int.floor_intCast _
    exact (Int.floor_le_floor h10).trans_eq hcast
  have hup : 1 / 2 ≤ q * 10 - ⌊q * 10⌋ → ⌊q * 10⌋ + 1 ≤ 10 * n := by
    intro hhalf
    have hlt : (⌊q * 10⌋ : ℚ) + 1 / 2 ≤ ((10 * n : ℤ) : ℚ) := by linarith
    have : ⌊q * 10⌋ < 10 * n := by
      by_contra hc
      push_neg at hc
      have : ((10 * n : ℤ) : ℚ) ≤ (⌊q * 10⌋ : ℚ) := by exact_mod_cast hc
      linarith
    omega
  have hr : pyRoundTenths q ≤ 10 * n := by
    unfold pyRoundTenths
    split_ifs with h1 h2 h3
    · exact hf
    · exact hup (by linarith)
    · exact hf
    · exact hup (by linarith)
  unfold pyRound1
  rw [div_le_iff₀ (by norm_num : (0:ℚ) < 10)]
  calc (pyRoundTenths q : ℚ) ≤ ((10 * n : ℤ) : ℚ) := by exact_mod_cast hr
    _ = (n : ℚ) * 10 := by push_cast; ring

theorem calculateSkillMatchScore_bounds (r j : String) :
    0 ≤ calculateSkillMatchScore r j ∧ calculateSkillMatchScore r j ≤ 100 := by
  unfold calculateSkillMatchScore
  simp only []
  split_ifs with h
  · norm_num
  · constructor
    · apply le_min
      · have h1 : (0:ℚ) ≤ ((extractSkills r ∩ extractSkills j).card : ℚ) /
            ((extractSkills j).card : ℚ) * 100 := by positivity
        have h2 : (0:ℚ) ≤ min (((extractSkills r \ extractSkills j).card : ℚ) * 0.02) 0.1 :=
          le_min (by positivity) (by norm_num)
        linarith
      · norm_num
    · exact min_le_right _ _

theorem calculateTfidfScore_bounds (sim : Option ℚ) (r j : String)
    (hs : ∀ s, sim = some s → 0 ≤ s) :
    0 ≤ calculateTfidfScore sim r j ∧ calculateTfidfScore sim r j ≤ 100 := by
  unfold calculateTfidfScore
  split_ifs with h
  · norm_num
  · cases sim with
    | none => norm_num
    | some s =>
      have h0 : 0 ≤ s := hs s rfl
      constructor
      · have hm : (0:ℚ) ≤ min (s * 1.5) 0.95 := le_min (by linarith) (by norm_num)
        simpa using mul_nonneg hm (by norm_num : (0:ℚ) ≤ 100)
      · have hm : min (s * 1.5) 0.95 ≤ 0.95 := min_le_right _ _
        nlinarith

/-- The matched-keyword set never outgrows the job-keyword set, hence the
bonus branch of `calculate_keyword_density_score` is dead and the function
simplifies to its base formula. -/
theorem calculateKeywordDensityScore_eq (r j : String) :
    calculateKeywordDensityScore r j =
      if jdKeywordSet j = ∅ then 50
      else ((textWordSet r ∩ jdKeywordSet j).card : ℚ) / ((jdKeywordSet j).card : ℚ) * 100 := by
  unfold calculateKeywordDensityScore
  simp only []
  split_ifs with h h2
  · rfl
  · exfalso
    have hle : (textWordSet r ∩ jdKeywordSet j).card ≤ (jdKeywordSet j).card :=
      Finset.card_le_card Finset.inter_subset_right
    omega
  · rfl

theorem ratio100_bounds (m n : ℕ) (hle : m ≤ n) (hpos : 0 < n) :
    0 ≤ (m : ℚ) / (n : ℚ) * 100 ∧ (m : ℚ) / (n : ℚ) * 100 ≤ 100 := by
  constructor
  · positivity
  · have hr : (m : ℚ) / (n : ℚ) ≤ 1 := by
      rw [div_le_one (by exact_mod_cast hpos)]
      exact_mod_cast hle
    nlinarith

theorem calculateKeywordDensityScore_bounds (r j : String) :
    0 ≤ calculateKeywordDensityScore r j ∧ calculateKeywordDensityScore r j ≤ 100 := by
  rw [calculateKeywordDensityScore_eq]
  split_ifs with h
  · norm_num
  · exact ratio100_bounds _ _
      (Finset.card_le_card Finset.inter_subset_right)
      (Finset.card_pos.mpr (Finset.nonempty_iff_ne_empty.mpr h))

theorem calculateExperienceScore_bounds (r j : String) :
    0 ≤ calculateExperienceScore r j ∧ calculateExperienceScore r j ≤ 100 := by
  unfold calculateExperienceScore
  simp only []
  constructor
  · apply le_min
    · have h1 : (0:ℚ) ≤ min ((achievementCountOf (lowerStr r) : ℚ) * 1.5) 15 :=
        le_min (by positivity) (by norm_num)
      have h2 : (0:ℚ) ≤ min ((quantifiedCountOf (lowerStr r) : ℚ) * 2) 10 :=
        le_min (by positivity) (by norm_num)
      split_ifs <;> linarith
    · norm_num
  · exact min_le_right _ _

/-- The `max`-accumulating keyword fold never goes below its accumulator. -/
theorem eduFoldList_ge (t : String) (l : List (String × ℚ)) (acc : ℚ) :
    acc ≤ l.foldl (fun a p => if strHasSub p.1 t then max a p.2 else a) acc := by
  induction l generalizing acc with
  | nil => exact le_refl acc
  | cons p rest ih =>
    have hstep : acc ≤ (if strHasSub p.1 t then max acc p.2 else acc) := by
      split_ifs
      · exact le_max_left _ _
      · exact le_refl acc
    exact hstep.trans (ih _)

/-- The fold stays below any bound dominating the accumulator and all table
values. -/
theorem eduFoldList_le (t : String) (l : List (String × ℚ)) (acc b : ℚ)
    (ha : acc ≤ b) (hv : ∀ p ∈ l, p.2 ≤ b) :
    l.foldl (fun a p => if strHasSub p.1 t then max a p.2 else a) acc ≤ b := by
  induction l generalizing acc with
  | nil => exact ha
  | cons p rest ih =>
    have hstep : (if strHasSub p.1 t then max acc p.2 else acc) ≤ b := by
      split_ifs
      · exact max_le ha (hv p (List.mem_cons_self p rest))
      · exact ha
    exact ih _ hstep (fun q hq => hv q (List.mem_cons_of_mem p hq))

/-- With no keyword hit the fold returns its accumulator. -/
theorem eduFoldList_none (t : String) (l : List (String × ℚ)) (acc : ℚ)
    (h : ∀ p ∈ l, strHasSub p.1 t = false) :
    l.foldl (fun a p => if strHasSub p.1 t then max a p.2 else a) acc = acc := by
  induction l generalizing acc with
  | nil => rfl
  | cons p rest ih =>
    have hp : strHasSub p.1 t = false := h p (List.mem_cons_self p rest)
    simp only [List.foldl_cons, hp]
    simpa using ih acc (fun q hq => h q (List.mem_cons_of_mem p hq))

/-- A keyword hit pushes the fold to at least that keyword's value. -/
theorem eduFoldList_ge_of_mem (t : String) (l : List (String × ℚ)) (acc : ℚ)
    (p : String × ℚ) (hp : p ∈ l) (hhit : strHasSub p.1 t = true) :
    p.2 ≤ l.foldl (fun a q => if strHasSub q.1 t then max a q.2 else a) acc := by
  induction l generalizing acc with
  | nil => cases hp
  | cons q rest ih =>
    rcases List.mem_cons.mp hp with h | h
    · subst h
      simp only [List.foldl_cons, hhit, if_true]
      exact (le_max_right acc p.2).trans (eduFoldList_ge t rest _)
    · exact ih _ h

theorem eduFold_nonneg (t : String) : 0 ≤ eduFold t :=
  eduFoldList_ge t educationKeywordScores 0

theorem eduFold_le_100 (t : String) : eduFold t ≤ 100 := by
  apply eduFoldList_le t educationKeywordScores 0 100 (by norm_num)
  intro p hp
  fin_cases hp <;> norm_num

theorem calculateEducationScore_bounds (r j : String) :
    0 ≤ calculateEducationScore r j ∧ calculateEducationScore r j ≤ 100 := by
  unfold calculateEducationScore
  simp only []
  split_ifs with h1 h2
  · norm_num
  · have hrn : 0 ≤ eduFold (lowerStr r) := eduFold_nonneg _
    have hjl : eduFold (lowerStr j) ≤ 100 := eduFold_le_100 _
    have hlt : eduFold (lowerStr r) < eduFold (lowerStr j) := lt_of_not_ge (fun hc => h1 hc)
    have hmax : (1:ℚ) ≤ max (eduFold (lowerStr j)) 1 := le_max_right _ _
    have hmaxpos : (0:ℚ) < max (eduFold (lowerStr j)) 1 := by linarith
    constructor
    · positivity
    · have hle : eduFold (lowerStr r) ≤ max (eduFold (lowerStr j)) 1 :=
        le_trans hlt.le (le_max_left _ _)
      have hr1 : eduFold (lowerStr r) / max (eduFold (lowerStr j)) 1 ≤ 1 := by
        rw [div_le_one hmaxpos]
        exact hle
      nlinarith
  · norm_num

theorem pyRound1_nonneg (q : ℚ) (h : 0 ≤ q) : 0 ≤ pyRound1 q := by
  have := pyRound1_ge_int 0 q (by exact_mod_cast h)
  simpa using this

theorem pyRound1_le_100 (q : ℚ) (h : q ≤ 100) : pyRound1 q ≤ 100 := by
  have := pyRound1_le_int 100 q (by exact_mod_cast h)
  simpa using this

theorem tfidfFloorAdjust_bounds (s x : ℚ) (hx : 0 ≤ x ∧ x ≤ 100) :
    0 ≤ tfidfFloorAdjust s x ∧ tfidfFloorAdjust s x ≤ 100 := by
  unfold tfidfFloorAdjust
  split_ifs with h1 h2
  · exact ⟨le_trans hx.1 (le_max_left _ _), max_le hx.2 (by norm_num)⟩
  · exact ⟨le_trans hx.1 (le_max_left _ _), max_le hx.2 (by norm_num)⟩
  · exact hx

theorem keywordFloorAdjust_bounds (s x : ℚ) (hx : 0 ≤ x ∧ x ≤ 100) :
    0 ≤ keywordFloorAdjust s x ∧ keywordFloorAdjust s x ≤ 100 := by
  unfold keywordFloorAdjust
  split_ifs with h1 h2
  · exact ⟨le_trans hx.1 (le_max_left _ _), max_le hx.2 (by norm_num)⟩
  · exact ⟨le_trans hx.1 (le_max_left _ _), max_le hx.2 (by norm_num)⟩
  · exact hx

theorem skillBonusAdjust_bounds (s x : ℚ) (hx : 0 ≤ x ∧ x ≤ 100) :
    0 ≤ skillBonusAdjust s x ∧ skillBonusAdjust s x ≤ 100 := by
  unfold skillBonusAdjust
  split_ifs with h1 h2 h3
  · exact ⟨le_min (by linarith [hx.1]) (by norm_num), min_le_right _ _⟩
  · exact ⟨le_min (by linarith [hx.1]) (by norm_num), min_le_right _ _⟩
  · exact ⟨le_min (by linarith [hx.1]) (by norm_num), min_le_right _ _⟩
  · exact hx

theorem skillFloorAdjust_bounds (s x : ℚ) (hx : 0 ≤ x ∧ x ≤ 100) :
    0 ≤ skillFloorAdjust s x ∧ skillFloorAdjust s x ≤ 100 := by
  unfold skillFloorAdjust
  split_ifs with h1 h2 h3
  · exact ⟨le_trans hx.1 (le_max_left _ _), max_le hx.2 (by norm_num)⟩
  · exact ⟨le_trans hx.1 (le_max_left _ _), max_le hx.2 (by norm_num)⟩
  · exact ⟨le_trans hx.1 (le_max_left _ _), max_le hx.2 (by norm_num)⟩
  · exact hx

theorem combineScores_bounds (s t k e d : ℚ)
    (hs : 0 ≤ s ∧ s ≤ 100) (ht : 0 ≤ t ∧ t ≤ 100) (hk : 0 ≤ k ∧ k ≤ 100)
    (he : 0 ≤ e ∧ e ≤ 100) (hd : 0 ≤ d ∧ d ≤ 100) :
    0 ≤ combineScores s t k e d ∧ combineScores s t k e d ≤ 100 := by
  unfold combineScores
  simp only []
  have ht' := tfidfFloorAdjust_bounds s t ht
  have hk' := keywordFloorAdjust_bounds s k hk
  have hws : 0 ≤ s * 0.50 + tfidfFloorAdjust s t * 0.20 + keywordFloorAdjust s k * 0.15 +
        e * 0.10 + d * 0.05 ∧
      s * 0.50 + tfidfFloorAdjust s t * 0.20 + keywordFloorAdjust s k * 0.15 +
        e * 0.10 + d * 0.05 ≤ 100 := by
    constructor <;> nlinarith [hs.1, hs.2, ht'.1, ht'.2, hk'.1, hk'.2, he.1, he.2, hd.1, hd.2]
  have hb := skillBonusAdjust_bounds s _ hws
  have hf := skillFloorAdjust_bounds s _ hb
  exact ⟨pyRound1_nonneg _ hf.1, pyRound1_le_100 _ hf.2⟩

/-- When the skill sub-score reaches 90 the final floor applies, so the score
is at least 75 whatever the other sub-scores are. -/
theorem combineScores_ge_75 (s t k e d : ℚ) (h : 90 ≤ s) :
    75 ≤ combineScores s t k e d := by
  unfold combineScores
  simp only []
  have hfl : (75:ℚ) ≤ skillFloorAdjust s (skillBonusAdjust s
      (s * 0.50 + tfidfFloorAdjust s t * 0.20 + keywordFloorAdjust s k * 0.15 +
        e * 0.10 + d * 0.05)) := by
    unfold skillFloorAdjust
    rw [if_pos h]
    exact le_max_right _ _
  have := pyRound1_ge_int 75 _ (by exact_mod_cast hfl)
  simpa using this

theorem calculateTfidfScore_none (r j : String) : calculateTfidfScore none r j = 0 := by
  unfold calculateTfidfScore
  split_ifs <;> rfl

theorem pyRound1_tenths (q : ℚ) : ∃ n : ℤ, pyRound1 q = (n : ℚ) / 10 :=
  ⟨pyRoundTenths q, rfl⟩

theorem eduScores_ge_40 : ∀ p ∈ educationKeywordScores, (40:ℚ) ≤ p.2 := by
  intro p hp
  fin_cases hp <;> norm_num

/-- When both texts yield the same non-empty skill set the skill-match score
is exactly 100 (full ratio, no extras). -/
theorem skillMatch_of_eq (r j : String) (h : extractSkills r = extractSkills j)
    (hne : extractSkills j ≠ ∅) : calculateSkillMatchScore r j = 100 := by
  unfold calculateSkillMatchScore
  simp only []
  rw [if_neg hne, h, Finset.inter_self, Finset.sdiff_self]
  have hc : 0 < (extractSkills j).card :=
    Finset.card_pos.mpr (Finset.nonempty_iff_ne_empty.mpr hne)
  have hz : ((extractSkills j).card : ℚ) ≠ 0 := by positivity
  rw [div_self hz]
  norm_num

/-! ## Claim theorems -/

/-- C1: for every pair of input texts, `calculate_weighted_score` — the
`score()` entry point — returns a value in `[0, 100]` that is a multiple of
one tenth (one decimal place), for every admissible outcome of the abstract
TF-IDF cosine computation (`sim`, non-negative when it succeeds); and when
that computation fails (`sim = none`), only the content-similarity sub-score
is forced to 0 while the other four sub-scores still combine normally.
Totality of the Lean function models the absence of uncaught exceptions. -/
theorem weighted_score_total_bounded_failsoft (sim : Option ℚ) (r j : String)
    (hsim : ∀ s, sim = some s → 0 ≤ s) :
    (0 ≤ calculateWeightedScore sim r j ∧ calculateWeightedScore sim r j ≤ 100) ∧
    (∃ n : ℤ, calculateWeightedScore sim r j = (n : ℚ) / 10) ∧
    calculateWeightedScore none r j =
      combineScores (calculateSkillMatchScore r j) 0 (calculateKeywordDensityScore r j)
        (calculateExperienceScore r j) (calculateEducationScore r j) := by
  refine ⟨?_, ?_, ?_⟩
  · unfold calculateWeightedScore
    exact combineScores_bounds _ _ _ _ _
      (calculateSkillMatchScore_bounds r j)
      (calculateTfidfScore_bounds sim r j hsim)
      (calculateKeywordDensityScore_bounds r j)
      (calculateExperienceScore_bounds r j)
      (calculateEducationScore_bounds r j)
  · unfold calculateWeightedScore combineScores
    simp only []
    exact pyRound1_tenths _
  · unfold calculateWeightedScore
    rw [calculateTfidfScore_none]

theorem weighted_score_total_bounded_failsoft_witness :
    0 ≤ calculateWeightedScore none "python developer" "java job" ∧
      calculateWeightedScore none "python developer" "java job" ≤ 100 :=
  (weighted_score_total_bounded_failsoft none "python developer" "java job"
    (fun _ h => Option.noConfusion h)).1

/-- C2: whenever the skill-match sub-score is at least 90, the overall
weighted score is at least 75 (the final skill-tier floor), for every TF-IDF
outcome. -/
theorem skill_dominance_overall_floor (sim : Option ℚ) (r j : String)
    (h : 90 ≤ calculateSkillMatchScore r j) :
    75 ≤ calculateWeightedScore sim r j := by
  unfold calculateWeightedScore
  exact combineScores_ge_75 _ _ _ _ _ h

theorem skill_dominance_overall_floor_witness :
    75 ≤ calculateWeightedScore none "python" "python" := by
  apply skill_dominance_overall_floor
  have h100 : calculateSkillMatchScore "python" "python" = 100 :=
    skillMatch_of_eq _ _ rfl (by decide)
  rw [h100]
  norm_num

/-- C3: `calculate_skill_match_score` returns 0 when the job description has
no taxonomy skill, and otherwise
`min(100, (|matched| / |jd_skills|) * 100 + min(0.02 * |extra|, 0.10) * 100)`
with `matched = resume_skills ∩ jd_skills`, `extra = resume_skills \ jd_skills`,
and `extract_skills` applied to the raw (unnormalised) texts. -/
theorem skill_match_score_formula (r j : String) :
    calculateSkillMatchScore r j = specSkillMatchScore r j := by
  unfold calculateSkillMatchScore specSkillMatchScore
  simp only []
  split_ifs with h
  · rfl
  · rw [mul_comm (0.02 : ℚ) (((extractSkills r \ extractSkills j).card : ℚ)), min_comm]
    norm_num

/-- C4 (counterexample): the claim "no education keyword in the resume implies
score 50" fails at `resume = ""`, `jd = ""`: with no keyword on either side
`resume_edu_score >= jd_edu_score` holds (0 ≥ 0), so the function returns 100,
not 50. -/
theorem education_score_noedu_counterexample :
    ¬ (hasEduScoreKeyword "" = false → calculateEducationScore "" "" = 50) := by decide

/-- C4 (amended): when the resume text contains no education keyword,
`calculate_education_score` returns 50 if the job text contains at least one
education keyword, and 100 if the job text contains none either. -/
theorem education_score_no_resume_keyword (r j : String)
    (hr : hasEduScoreKeyword r = false) :
    (hasEduScoreKeyword j = true → calculateEducationScore r j = 50) ∧
    (hasEduScoreKeyword j = false → calculateEducationScore r j = 100) := by
  have hrAll : ∀ p ∈ educationKeywordScores, strHasSub p.1 (lowerStr r) = false := by
    have h' : ∀ (a : String) (b : ℚ), (a, b) ∈ educationKeywordScores →
        strHasSub a (lowerStr r) = false := by
      simpa [hasEduScoreKeyword] using hr
    intro p hp
    exact h' p.1 p.2 hp
  have hr0 : eduFold (lowerStr r) = 0 := eduFoldList_none _ _ _ hrAll
  constructor
  · intro hj
    have h' : ∃ a, (∃ b, (a, b) ∈ educationKeywordScores) ∧
        strHasSub a (lowerStr j) = true := by
      simpa [hasEduScoreKeyword] using hj
    obtain ⟨a, ⟨b, hab⟩, hhit⟩ := h'
    have h40 : (40:ℚ) ≤ eduFold (lowerStr j) :=
      le_trans (eduScores_ge_40 (a, b) hab)
        (eduFoldList_ge_of_mem _ _ _ (a, b) hab hhit)
    unfold calculateEducationScore
    simp only []
    rw [hr0, if_neg (by linarith), if_neg (by norm_num)]
  · intro hj
    have hjAll : ∀ p ∈ educationKeywordScores, strHasSub p.1 (lowerStr j) = false := by
      have h' : ∀ (a : String) (b : ℚ), (a, b) ∈ educationKeywordScores →
          strHasSub a (lowerStr j) = false := by
        simpa [hasEduScoreKeyword] using hj
      intro p hp
      exact h' p.1 p.2 hp
    have hj0 : eduFold (lowerStr j) = 0 := eduFoldList_none _ _ _ hjAll
    unfold calculateEducationScore
    simp only []
    rw [hr0, hj0, if_pos (le_refl 0)]

theorem education_score_no_resume_keyword_witness :
    calculateEducationScore "x" "degree" = 50 ∧ calculateEducationScore "x" "y" = 100 :=
  ⟨(education_score_no_resume_keyword "x" "degree" (by decide)).1 (by decide),
   (education_score_no_resume_keyword "x" "y" (by decide)).2 (by decide)⟩

/-- C8: the matched keywords are an intersection with the job keyword set, so
their count never exceeds that set's size, the extra-keyword bonus branch of
`calculate_keyword_density_score` is unreachable, and the score is exactly 50
for an empty job keyword set and exactly `|matched| / |jd_keywords| * 100`
otherwise — which is at most 100 without the cap. -/
theorem keyword_density_bonus_unreachable (r j : String) :
    (textWordSet r ∩ jdKeywordSet j).card ≤ (jdKeywordSet j).card ∧
    calculateKeywordDensityScore r j =
      (if jdKeywordSet j = ∅ then 50
       else ((textWordSet r ∩ jdKeywordSet j).card : ℚ) / ((jdKeywordSet j).card : ℚ) * 100) ∧
    calculateKeywordDensityScore r j ≤ 100 :=
  ⟨Finset.card_le_card Finset.inter_subset_right,
   calculateKeywordDensityScore_eq r j,
   (calculateKeywordDensityScore_bounds r j).2⟩

/-- C5: `calculate_experience_score` follows the tier table — base 50 when
neither text matches the years pattern; 100/85/70/60 by the ratio of the
resume's maximum years to the job's maximum when both match; 90/80/70 for
≥5/≥3/≥1 years when only the resume matches — and in every case adds the
achievement and quantified bonuses and caps the result at 100. -/
theorem experience_score_tier_table (r j : String) :
    (findExpYears (lowerStr r) = [] → findExpYears (lowerStr j) = [] →
      calculateExperienceScore r j = min (50 + claimedExperienceBonus r) 100) ∧
    (findExpYears (lowerStr r) ≠ [] → findExpYears (lowerStr j) ≠ [] →
      calculateExperienceScore r j =
        min ((if (maxList (findExpYears (lowerStr j)) : ℚ) ≤
                (maxList (findExpYears (lowerStr r)) : ℚ) then (100:ℚ)
          else if (maxList (findExpYears (lowerStr j)) : ℚ) * 0.8 ≤
                (maxList (findExpYears (lowerStr r)) : ℚ) then 85
          else if (maxList (findExpYears (lowerStr j)) : ℚ) * 0.6 ≤
                (maxList (findExpYears (lowerStr r)) : ℚ) then 70
          else 60) + claimedExperienceBonus r) 100) ∧
    (findExpYears (lowerStr r) ≠ [] → findExpYears (lowerStr j) = [] →
      1 ≤ maxList (findExpYears (lowerStr r)) →
      calculateExperienceScore r j =
        min ((if 5 ≤ maxList (findExpYears (lowerStr r)) then (90:ℚ)
          else if 3 ≤ maxList (findExpYears (lowerStr r)) then 80
          else 70) + claimedExperienceBonus r) 100) := by
  refine ⟨?_, ?_, ?_⟩
  · intro h1 h2
    unfold calculateExperienceScore claimedExperienceBonus
    simp only []
    rw [if_neg (fun hc => hc.1 h1), if_neg (fun hc => hc h1), add_assoc]
  · intro h1 h2
    unfold calculateExperienceScore claimedExperienceBonus
    simp only []
    rw [if_pos ⟨h1, h2⟩, add_assoc]
  · intro h1 h2 h3
    unfold calculateExperienceScore claimedExperienceBonus
    simp only []
    rw [if_neg (fun hc => hc.2 h2), if_pos h1, add_assoc]
    split_ifs with ha hb
    · rfl
    · rfl
    · rfl

theorem experience_score_tier_table_witness :
    calculateExperienceScore "4 years" "" = 80 := by
  have h := (experience_score_tier_table "4 years" "").2.2 (by decide) (by decide) (by decide)
  rw [h]
  have hm : maxList (findExpYears (lowerStr "4 years")) = 4 := by decide
  have hc1 : achievementCountOf (lowerStr "4 years") = 0 := by decide
  have hc2 : quantifiedCountOf (lowerStr "4 years") = 0 := by decide
  rw [hm]
  unfold claimedExperienceBonus
  rw [hc1, hc2]
  norm_num

/-- C9: the module-level wrapper `calculate_similarity_score(jd_text,
resume_text)` returns the one-decimal string formatting of
`calculate_weighted_score(resume_text, jd_text)` — it swaps the argument
order into the core and returns a formatted string, not a number. -/
theorem similarity_wrapper_swaps_and_formats (sim : Option ℚ) (jdText resumeText : String) :
    calculateSimilarityScore sim jdText resumeText =
      formatScore1 (calculateWeightedScore sim resumeText jdText) := rfl

/-- C10: `extract_education` reports a level exactly when one of that level's
keywords occurs as a raw substring of the lowercased text, with
`['Not specified']` exactly when no group matches; substring (not whole-word)
matching means `ms` inside `systems` and `ba` inside `database` still
classify. -/
theorem extract_education_substring_iff (t : String) :
    (("PhD" ∈ extractEducation t ↔
      (["phd", "ph.d", "doctorate", "doctoral"].any
        (fun k => strHasSub k (lowerStr t))) = true) ∧
    ("Masters" ∈ extractEducation t ↔
      (["masters", "master", "msc", "ms", "mba", "ma"].any
        (fun k => strHasSub k (lowerStr t))) = true) ∧
    ("Bachelors" ∈ extractEducation t ↔
      (["bachelors", "bachelor", "bsc", "bs", "ba", "beng", "btech"].any
        (fun k => strHasSub k (lowerStr t))) = true) ∧
    (extractEducation t = ["Not specified"] ↔
      (["phd", "ph.d", "doctorate", "doctoral"].any
        (fun k => strHasSub k (lowerStr t))) = false ∧
      (["masters", "master", "msc", "ms", "mba", "ma"].any
        (fun k => strHasSub k (lowerStr t))) = false ∧
      (["bachelors", "bachelor", "bsc", "bs", "ba", "beng", "btech"].any
        (fun k => strHasSub k (lowerStr t))) = false)) ∧
    "Masters" ∈ extractEducation "systems" ∧
    "Bachelors" ∈ extractEducation "database" := by
  refine ⟨?_, by decide, by decide⟩
  by_cases h1 : (["phd", "ph.d", "doctorate", "doctoral"].any
      (fun k => strHasSub k (lowerStr t))) = true <;>
    by_cases h2 : (["masters", "master", "msc", "ms", "mba", "ma"].any
      (fun k => strHasSub k (lowerStr t))) = true <;>
    by_cases h3 : (["bachelors", "bachelor", "bsc", "bs", "ba", "beng", "btech"].any
      (fun k => strHasSub k (lowerStr t))) = true <;>
    simp_all [extractEducation, educationLevels] <;> (intros; simp_all)

/-- C7: on the synthetic contact line, the email extractor returns the full
address, the phone extractor finds a match (pattern B, the parenthesised area
code), and the location extractor returns the City, ST capture. -/
theorem metadata_extraction_concrete :
    extractEmail "Contact: jane.doe@example.com, (415) 555-0100, San Francisco, CA" =
      "jane.doe@example.com" ∧
    extractPhone "Contact: jane.doe@example.com, (415) 555-0100, San Francisco, CA" ≠
      "Not found" ∧
    extractLocation "Contact: jane.doe@example.com, (415) 555-0100, San Francisco, CA" =
      "San Francisco, CA" := by
  refine ⟨by decide, by decide, by decide⟩

theorem take_ne_nil_of_ne_nil {α : Type} (l : List α) (n : ℕ) (h : l ≠ []) (hn : n ≠ 0) :
    l.take n ≠ [] := by
  cases l with
  | nil => exact absurd rfl h
  | cons a as =>
    cases n with
    | zero => exact absurd rfl hn
    | succ m => simp

theorem length_take_le (l : List String) (n : ℕ) : (l.take n).length ≤ n := by
  rw [List.length_take]
  exact min_le_left _ _

theorem fallback_ne_nil {α : Type} [DecidableEq α] (l fb : List α) (hfb : fb ≠ []) :
    (if l = [] then fb else l) ≠ [] := by
  split_ifs with h
  · exact hfb
  · exact h

theorem append_singleton_ne_nil {α : Type} (l : List α) (a : α) : l ++ [a] ≠ [] := by simp

theorem identifyStrengths_ne_nil (r j : String) : identifyStrengths r j ≠ [] := by
  unfold identifyStrengths
  simp only []
  exact take_ne_nil_of_ne_nil _ _ (fallback_ne_nil _ _ (by simp)) (by norm_num)

theorem identifyWeaknesses_ne_nil (r j : String) : identifyWeaknesses r j ≠ [] := by
  unfold identifyWeaknesses
  simp only []
  exact take_ne_nil_of_ne_nil _ _ (fallback_ne_nil _ _ (by simp)) (by norm_num)

theorem generateRecommendations_ne_nil (r j : String) (s : ℚ) (w : List String) :
    generateRecommendations r j s w ≠ [] := by
  unfold generateRecommendations
  simp only []
  exact take_ne_nil_of_ne_nil _ _ (append_singleton_ne_nil _ _) (by norm_num)

theorem identifyStrengths_len (r j : String) : (identifyStrengths r j).length ≤ 6 := by
  unfold identifyStrengths
  simp only []
  exact length_take_le _ _

theorem identifyWeaknesses_len (r j : String) : (identifyWeaknesses r j).length ≤ 5 := by
  unfold identifyWeaknesses
  simp only []
  exact length_take_le _ _

theorem generateRecommendations_len (r j : String) (s : ℚ) (w : List String) :
    (generateRecommendations r j s w).length ≤ 8 := by
  unfold generateRecommendations
  simp only []
  exact length_take_le _ _

/-- C6: for every non-empty resume text, non-empty job text and any match
score, `analyze_resume` returns three lists that are each non-empty (the
generic fallbacks substitute when no rule fires; the recommendation list
always starts with a score-tier pair and ends with fixed entries) and that
hold at most 6 strengths, 5 weaknesses and 8 recommendations (truncation by
`take` in detection order). -/
theorem analysis_nonempty_and_capped (r j : String) (score : ℚ)
    (_hr : r ≠ "") (_hj : j ≠ "") :
    (analyzeResume r j score).1 ≠ [] ∧
    (analyzeResume r j score).2.1 ≠ [] ∧
    (analyzeResume r j score).2.2 ≠ [] ∧
    (analyzeResume r j score).1.length ≤ 6 ∧
    (analyzeResume r j score).2.1.length ≤ 5 ∧
    (analyzeResume r j score).2.2.length ≤ 8 := by
  refine ⟨?_, ?_, ?_, ?_, ?_, ?_⟩
  · show identifyStrengths (lowerStr r) (lowerStr j) ≠ []
    exact identifyStrengths_ne_nil _ _
  · show identifyWeaknesses (lowerStr r) (lowerStr j) ≠ []
    exact identifyWeaknesses_ne_nil _ _
  · show generateRecommendations (lowerStr r) (lowerStr j) score
      (identifyWeaknesses (lowerStr r) (lowerStr j)) ≠ []
    exact generateRecommendations_ne_nil _ _ _ _
  · show (identifyStrengths (lowerStr r) (lowerStr j)).length ≤ 6
    exact identifyStrengths_len _ _
  · show (identifyWeaknesses (lowerStr r) (lowerStr j)).length ≤ 5
    exact identifyWeaknesses_len _ _
  · show (generateRecommendations (lowerStr r) (lowerStr j) score
      (identifyWeaknesses (lowerStr r) (lowerStr j))).length ≤ 8
    exact generateRecommendations_len _ _ _ _

theorem analysis_nonempty_and_capped_witness :
    (analyzeResume "a" "b" 50).1 ≠ [] ∧
    (analyzeResume "a" "b" 50).2.1 ≠ [] ∧
    (analyzeResume "a" "b" 50).2.2 ≠ [] ∧
    (analyzeResume "a" "b" 50).1.length ≤ 6 ∧
    (analyzeResume "a" "b" 50).2.1.length ≤ 5 ∧
    (analyzeResume "a" "b" 50).2.2.length ≤ 8 :=
  analysis_nonempty_and_capped "a" "b" 50 (by decide) (by decide)
